import Mathlib

/-!
Shallow embedding of the CFHost resolver core of `src/Host/CFHost.c`
(trunkmaster/apple-cfnetwork), Linux configuration (`__linux__` branches).

Conventions of the embedding:
  * CFString host names are lists of UTF-16 code units (`HostName`);
    CFData sockaddr buffers are byte lists (`AddrBytes`).
  * CFDictionary / CFMutableDictionary values are association lists with
    `CFDictionaryAddValue` add-if-absent semantics (`dictAdd`) and removal
    by key (`dictRemove`); insertion order models iteration order.
  * CF object identity (needed where the source distinguishes an array from
    its deep copy) is an explicit numeric `id` carried next to the contents.
  * Allocation outcomes of the CF runtime (array/source/date creation) are
    explicit `Bool` parameters threaded through `LookupEnv`, mirroring each
    `if (!obj) { error = ENOMEM; ... }` branch of the source.
  * `CFTimeInterval` / `CFAbsoluteTime` doubles are modelled as integer
    counts of a fixed sub-second unit, with the 1.0-second cache timeout as
    `kCFHostCacheTimeoutUnits = 1000` (1 unit = 1 ms): sub-second age
    granularity is preserved and all arithmetic is kernel-decidable.
-/

namespace CFHost

abbrev HostName := List Nat

abbrev AddrBytes := List Nat

/-- `CFStreamError`: a code together with a domain (CFHost.c:147). -/
structure CFStreamError where
  error : Int
  domain : Int
deriving Repr, DecidableEq

/-- `kCFStreamErrorDomainPOSIX` (CFStream public header). -/
def posixDomain : Int := 1

/-- `kCFStreamErrorDomainNetDB = 12` (CFHost.c:114). -/
def netdbDomain : Int := 12

def ENOMEM_code : Int := 12

def EOPNOTSUPP_code : Int := 95

def HOST_NOT_FOUND_code : Int := 1

def EAI_SYSTEM_code : Int := -11

def NETDB_INTERNAL_code : Int := -1

def noStreamError : CFStreamError := ⟨0, 0⟩

def outOfMemoryError : CFStreamError := ⟨ENOMEM_code, posixDomain⟩

/-- `CFHostInfoType` together with the private kinds of CFHost.c:117-122.
`nullType` is `_kCFNullHostInfoType = 0xFFFFFFFF`. -/
inductive HostInfoType where
  | addresses
  | names
  | reachability
  | ipv4
  | ipv6
  | masterAddressLookup
  | byPassMaster
  | generic (cls ty : Nat)
  | nullType
deriving Repr, DecidableEq

/-- Values stored in a host's `_info` dictionary: `kCFNull`, an array of
names, an array of address buffers, or a data blob.  The `id` component
models CF object identity (two structurally equal arrays may be distinct
objects; a deep copy gets a fresh `id`). -/
inductive CFValue where
  | null
  | namesArr (id : Nat) (l : List HostName)
  | addrsArr (id : Nat) (l : List AddrBytes)
  | dataVal (id : Nat) (bytes : List Nat)
deriving Repr, DecidableEq

/-! ### Association-list dictionaries (CFMutableDictionary) -/

/-- `CFDictionaryGetValue`: first entry with the given key. -/
def dictGet {κ α : Type} [DecidableEq κ] : List (κ × α) → κ → Option α
  | [], _ => none
  | p :: r, k => if p.1 = k then some p.2 else dictGet r k

/-- `CFDictionaryAddValue`: adds only when the key is absent. -/
def dictAdd {κ α : Type} [DecidableEq κ] (d : List (κ × α)) (k : κ) (v : α) :
    List (κ × α) :=
  if (dictGet d k).isSome then d else d ++ [(k, v)]

/-- `CFDictionaryRemoveValue`: removes the entry with the given key (keys of a
CFDictionary are unique; removal of every occurrence coincides). -/
def dictRemove {κ α : Type} [DecidableEq κ] (d : List (κ × α)) (k : κ) :
    List (κ × α) :=
  d.filter (fun p => decide (¬ p.1 = k))

/-- In-place mutation of the value stored under a key (the source mutates the
`CFMutableArray` held by the dictionary). -/
def dictUpdate {κ α : Type} [DecidableEq κ] (d : List (κ × α)) (k : κ)
    (f : α → α) : List (κ × α) :=
  d.map (fun p => if p.1 = k then (p.1, f p.2) else p)

/-! ### The positive cache (`_HostCache`) -/

/-- One cache value: the `CFArray` `[theHost, fetchDate]` of
CFHost.c:2146-2151.  Of the cached primary host we keep what the cache-hit
path reads back: the identity and contents of its
`_kCFHostMasterAddressLookup` address array. -/
structure CacheEntry where
  hostAddrsId : Nat
  hostAddrs : List AddrBytes
  date : Int
deriving Repr, DecidableEq

abbrev HostCache := List (HostName × CacheEntry)

def kCFHostCacheMaxEntries : Nat := 25

/-- `_kCFHostCacheTimeout = 1.0` second, in model time units. -/
def kCFHostCacheTimeoutUnits : Int := 1000

/-- `fabs(CFDateGetTimeIntervalSinceDate(now, date))` (CFHost.c:742). -/
def entryAge (now : Int) (e : CacheEntry) : Int := |now - e.date|

/-- The loop of `_ExpireCacheEntries` (CFHost.c:740-753): walks the snapshot
of the cache, removing every entry whose age is at least the timeout
(`_kCFHostCacheTimeout = 1.0`) from the live dictionary, and tracking in `j`
the snapshot index of the entry with the greatest age seen so far among the
survivors (strict improvement over `oldest`, which starts at `0.0`). -/
def expireLoop (now : Int) :
    List (HostName × CacheEntry) → HostCache → Nat → Nat → Int →
    HostCache × Nat
  | [], dict, _, j, _ => (dict, j)
  | p :: rest, dict, i, j, oldest =>
    let since := entryAge now p.2
    if kCFHostCacheTimeoutUnits ≤ since then
      expireLoop now rest (dictRemove dict p.1) (i + 1) j oldest
    else if oldest < since then
      expireLoop now rest dict (i + 1) i since
    else
      expireLoop now rest dict (i + 1) j oldest

/-- The index-tracking component of the expiry loop on its own (it never
reads the live dictionary). -/
def trackFold (now : Int) : List (HostName × CacheEntry) → Nat → Nat → Int → Nat
  | [], _, j, _ => j
  | p :: rest, i, j, oldest =>
    let since := entryAge now p.2
    if kCFHostCacheTimeoutUnits ≤ since then trackFold now rest (i + 1) j oldest
    else if oldest < since then trackFold now rest (i + 1) i since
    else trackFold now rest (i + 1) j oldest

/-- `_ExpireCacheEntries` (CFHost.c:705-772): run the expiry loop over a
snapshot of the cache, then, if the dictionary still holds at least
`_kCFHostCacheMaxEntries` entries, remove the entry keyed by `keys[j]`
(CFHost.c:757-759).  `keys[j]` is the key at snapshot index `j`; when the
removal fires the dictionary is nonempty, so `j` is in range and the `none`
arm is dead. -/
def expireCacheEntries (cache : HostCache) (now : Int) : HostCache :=
  if kCFHostCacheMaxEntries ≤ (expireLoop now cache cache 0 0 0).1.length then
    match cache.get? (expireLoop now cache cache 0 0 0).2 with
    | some p => dictRemove (expireLoop now cache cache 0 0 0).1 p.1
    | none => (expireLoop now cache cache 0 0 0).1
  else (expireLoop now cache cache 0 0 0).1

/-- The entries of a cache younger than the timeout: what the spec calls the
survivors of expiry. -/
def freshEntries (cache : HostCache) (now : Int) : HostCache :=
  cache.filter (fun p => decide (entryAge now p.2 < kCFHostCacheTimeoutUnits))

/-- Keys of the snapshot entries that the expiry loop deletes. -/
def staleKeys (cache : HostCache) (now : Int) : List HostName :=
  (cache.filter (fun p => decide (kCFHostCacheTimeoutUnits ≤ entryAge now p.2))).map
    Prod.fst

/-- The cache-admission fragment of `_MasterLookupCallBack`
(CFHost.c:2140-2167), run when the primary completed without error: for each
of the primary's names, `CFDictionaryAddValue` the `[host, now]` tuple.
`dateOk` / `itemsOk` are the `CFDateCreate` / `CFArrayCreate` allocation
outcomes; on failure nothing is admitted. -/
def masterAdmitNamesToCache (cache : HostCache) (names : Option CFValue)
    (addrsId : Nat) (addrs : List AddrBytes) (now : Int)
    (dateOk itemsOk : Bool) : HostCache :=
  match names with
  | some (.namesArr _ l) =>
    if dateOk then
      if itemsOk then
        l.foldl (fun c n => dictAdd c n ⟨addrsId, addrs, now⟩) cache
      else cache
    else cache
  | _ => cache

/-- The cache-consult fragment of `_CreateLookup_NoLock`'s `kCFHostAddresses`
branch (CFHost.c:524-539): expire the cache, then read the entry under the
host's first name.  Returns the post-expiry cache and the entry served. -/
def hostCacheConsult (cache : HostCache) (now : Int) (n : HostName) :
    HostCache × Option CacheEntry :=
  (expireCacheEntries cache now, dictGet (expireCacheEntries cache now) n)

/-! ### C-string conversion and getaddrinfo status mapping -/

/-- Modelled from the spec: `_CFStringGetOrCreateCString` (CFNetworkInternal,
not under `src/`) converts the leading run of convertible characters of a
CFString to UTF-8 and reports how many characters were converted.  Per the
spec (§7), conversion fails on embedded NULs and on units that fail UTF-8
conversion; here a unit is convertible unless it is `0` or an unpaired
surrogate (`0xD800 ≤ c < 0xE000`), the UTF-16 units un-encodable as UTF-8. -/
def convertibleUnit (c : Nat) : Bool :=
  decide (c ≠ 0) && (decide (c < 0xD800) || decide (0xE000 ≤ c))

/-- Number of characters `_CFStringGetOrCreateCString` converts. -/
def cstringConverted (n : HostName) : Nat :=
  (n.takeWhile convertibleUnit).length

/-- `_CFStringToCStringWithError` (CFHost.c:820-853): on allocation failure
set `ENOMEM`; when not every character converted, set `HOST_NOT_FOUND` in the
NetDB domain and return no buffer.  On success the error is left untouched. -/
def stringToCStringWithError (n : HostName) (allocOk : Bool)
    (err : CFStreamError) : Option HostName × CFStreamError :=
  if ¬allocOk then (none, outOfMemoryError)
  else if cstringConverted n ≠ n.length then
    (none, ⟨HOST_NOT_FOUND_code, netdbDomain⟩)
  else (some n, err)

/-- `_HandleGetAddrInfoStatus` (CFHost.c:872-899). -/
def handleGetAddrInfoStatus (eaiStatus errnoVal : Int) (err : CFStreamError)
    (intuitStatus : Bool) : CFStreamError :=
  if eaiStatus ≠ 0 then
    if eaiStatus = EAI_SYSTEM_code then ⟨errnoVal, posixDomain⟩
    else ⟨eaiStatus, netdbDomain⟩
  else if intuitStatus then
    if errnoVal ≠ 0 then ⟨errnoVal, posixDomain⟩
    else ⟨NETDB_INTERNAL_code, netdbDomain⟩
  else err

/-! ### The host handle -/

/-- The `_CFHost` struct (CFHost.c:142-158).  `lookup` holds the id of the
in-flight lookup token (CFFileDescriptor / CFRunLoopSource); `hasCallback` /
`clientInfo` model `_callback` and `_client.info`; `schedules` is the list of
(run loop, mode) pairs. -/
structure Host where
  info : List (HostInfoType × CFValue)
  lookup : Option Nat
  typ : HostInfoType
  schedules : List (Nat × Nat)
  hasCallback : Bool
  clientInfo : Bool
  error : CFStreamError
deriving Repr, DecidableEq

/-- `CFHostCreateWithName` (CFHost.c:2349-2373): a fresh handle seeded with a
one-element names array (array id 0). -/
def hostCreateWithName (n : HostName) : Host :=
  { info := [(.names, .namesArr 0 [n])]
    lookup := none
    typ := .nullType
    schedules := []
    hasCallback := false
    clientInfo := false
    error := noStreamError }

/-- `CFHostCreateWithAddress` (CFHost.c:2376-2400): a fresh handle seeded
with a one-element addresses array (array id 0). -/
def hostCreateWithAddress (a : AddrBytes) : Host :=
  { info := [(.addresses, .addrsArr 0 [a])]
    lookup := none
    typ := .nullType
    schedules := []
    hasCallback := false
    clientInfo := false
    error := noStreamError }

/-- `CFHostCreateCopy` (CFHost.c:2403-2432): snapshot of the info map alone. -/
def hostCreateCopy (h : Host) : Host :=
  { info := h.info
    lookup := none
    typ := .nullType
    schedules := []
    hasCallback := false
    clientInfo := false
    error := noStreamError }

/-- First name of the handle, as read by `_CreateLookup_NoLock`
(CFHost.c:505-509): the entry under `kCFHostNames`, if it is a non-`kCFNull`
nonempty array. -/
def firstName (h : Host) : Option HostName :=
  match dictGet h.info .names with
  | some (.namesArr _ (n :: _)) => some n
  | _ => none

/-- First address of the handle (CFHost.c:506-510). -/
def firstAddr (h : Host) : Option AddrBytes :=
  match dictGet h.info .addresses with
  | some (.addrsArr _ (a :: _)) => some a
  | _ => none

/-- `CFHostGetInfo` (CFHost.c:2545-2578): the stored value (with `kCFNull`
mapped to `NULL`) and the has-been-resolved flag (key present at all). -/
def cfHostGetInfo (h : Host) (info : HostInfoType) : Option CFValue × Bool :=
  match dictGet h.info info with
  | none => (none, false)
  | some v => (if v = .null then none else some v, true)

/-- `CFHostGetInfo` including the NULL-tolerant out-parameter handling
(CFHost.c:2552-2556): when no caller storage is supplied the flag is written
to the internal `extra` slot; the returned `Option` is what lands in caller
storage. -/
def cfHostGetInfoC (h : Host) (info : HostInfoType) (hasFlagPtr : Bool) :
    Option CFValue × Option Bool :=
  let r := cfHostGetInfo h info
  (r.1, if hasFlagPtr then some r.2 else none)

/-- `_CFArrayCreateDeepCopy` (CFHost.c:775-815) applied to an address array:
on success a structurally equal array under a fresh object id; on allocation
failure `NULL`. -/
def arrayCreateDeepCopy (src : Nat × List AddrBytes) (allocOk : Bool)
    (freshId : Nat) : Option (Nat × List AddrBytes) :=
  if allocOk then some (freshId, src.2) else none

/-! ### Environment of one lookup-creation call -/

/-- External outcomes consumed while creating a lookup: the current time,
allocation successes of the CF objects involved, the ids handed to freshly
created objects, and the platform resolver's start status. -/
structure LookupEnv where
  now : Int
  strAllocOk : Bool
  deepCopyOk : Bool
  sourceOk : Bool
  freshTok : Nat
  freshArr : Nat
  listOk : Bool
  hostOk : Bool
  gaiSourceOk : Bool
  gaiSourceErr : CFStreamError
  requestAllocOk : Bool
  gaiStatus : Int
  errnoVal : Int
  subSourceOk : Bool
  primTok : Nat
  addrToName : Option HostName
deriving Repr, DecidableEq

/-- An environment in which every allocation succeeds and the resolver start
succeeds. -/
def envOk : LookupEnv :=
  { now := 0
    strAllocOk := true
    deepCopyOk := true
    sourceOk := true
    freshTok := 1001
    freshArr := 2001
    listOk := true
    hostOk := true
    gaiSourceOk := true
    gaiSourceErr := outOfMemoryError
    requestAllocOk := true
    gaiStatus := 0
    errnoVal := 0
    subSourceOk := true
    primTok := 3001
    addrToName := none }

/-! ### The Linux master address lookup -/

/-- `_CreateAddressLookupRequest` (CFHost.c:1273-1309): allocate the gaicb
request (failure sets `ENOMEM` and returns `-ENOMEM`), then submit it with
`getaddrinfo_a`; a nonzero submission status is mapped through
`_HandleGetAddrInfoStatus(status, error, TRUE)` (CFHost.c:1301-1305).
Returns the status and the updated error. -/
def createAddressLookupRequest (requestAllocOk : Bool)
    (gaiStatus errnoVal : Int) (err : CFStreamError) : Int × CFStreamError :=
  if ¬requestAllocOk then
    (-ENOMEM_code,
      handleGetAddrInfoStatus (-ENOMEM_code) errnoVal outOfMemoryError true)
  else if gaiStatus ≠ 0 then
    (gaiStatus, handleGetAddrInfoStatus gaiStatus errnoVal err true)
  else (gaiStatus, err)

/-- Result of `_CreateMasterAddressLookup_Linux`: the lookup token, the error
slot it leaves behind, and whether a resolver request was actually submitted
to `getaddrinfo_a`. -/
structure MasterResult where
  tok : Option Nat
  err : CFStreamError
  requestIssued : Bool
deriving Repr, DecidableEq

/-- `_CreateMasterAddressLookup_Linux` (CFHost.c:1339-1372): convert the name
(bailing before any source or request on failure), create the signal-fd
lookup source (`_CreateAddressLookupSource_Linux`, whose failure wrote
`env.gaiSourceErr`), submit the request; a nonzero request status is mapped
once more through `_HandleGetAddrInfoStatus` and the source is destroyed. -/
def createMasterAddressLookup_Linux (n : HostName) (err0 : CFStreamError)
    (env : LookupEnv) : MasterResult :=
  match stringToCStringWithError n env.strAllocOk err0 with
  | (none, e) => ⟨none, e, false⟩
  | (some _, e1) =>
    if ¬env.gaiSourceOk then ⟨none, env.gaiSourceErr, false⟩
    else
      let r := createAddressLookupRequest env.requestAllocOk env.gaiStatus
        env.errnoVal e1
      if r.1 ≠ 0 then
        ⟨none, handleGetAddrInfoStatus r.1 env.errnoVal r.2 true,
          env.requestAllocOk⟩
      else ⟨some env.primTok, r.2, true⟩

/-! ### Client teardown helpers and the master-registry withdrawal -/

/-- `CFHostSetClient(h, NULL, NULL)` specialised to a handle whose in-flight
kind is not `kCFHostAddresses` (CFHost.c:2710-2778 with the registry block
dead): release the client context, tear down any lookup, clear callback and
context.  Inside the registry this is only ever applied to the primary, whose
kind is the `_kCFHostMasterAddressLookup` sentinel. -/
def setClientNullNoReg (h : Host) : Host :=
  if h.lookup.isSome then
    { h with lookup := none, typ := .nullType, hasCallback := false,
             clientInfo := false }
  else { h with hasCallback := false, clientInfo := false }

/-- `CFHostCancelInfoResolution` specialised to a handle whose in-flight kind
is not `kCFHostAddresses` (CFHost.c:2598-2707 with the registry block dead):
when a lookup exists it is replaced by the cancel stub (or by `NULL` when the
stub's `CFRunLoopSourceCreate` fails). -/
def cancelNoReg (h : Host) (stubOk : Bool) (freshStub : Nat) : Host :=
  match h.lookup with
  | none => h
  | some _ =>
    if stubOk then { h with lookup := some freshStub }
    else { h with lookup := none }

/-- An element of a master-lookup group (`_HostLookups` value array): index 0
is the primary `CFHostRef`, the rest are subscriber run-loop sources. -/
inductive GroupElem where
  | prim (h : Host)
  | stub (id : Nat)
deriving Repr, DecidableEq

abbrev Group := List GroupElem

/-- The global registry and cache (`_HostLookups` / `_HostCache`), both
guarded by `_HostLock`. -/
structure Globals where
  hostLookups : List (HostName × Group)
  hostCache : HostCache
deriving Repr, DecidableEq

def emptyGlobals : Globals := ⟨[], []⟩

/-- `CFArrayGetFirstIndexOfValue` over a group. -/
def firstIdxOf : Group → GroupElem → Option Nat
  | [], _ => none
  | x :: r, e => if x = e then some 0 else (firstIdxOf r e).map (· + 1)

/-- The master-registry withdrawal block shared by `CFHostCancelInfoResolution`
(CFHost.c:2627-2662) and `CFHostSetClient` (CFHost.c:2732-2767): find the
group under the subscriber's first name, locate the subscriber's lookup token
in it and remove it; if the group held exactly two elements, detach and
cancel the primary and remove the group.  Returns the new globals and, when
the primary was cancelled, its final state. -/
def withdrawFromMaster (g : Globals) (name : Option HostName) (tok : Nat) :
    Globals × Option Host :=
  match name with
  | none => (g, none)
  | some n =>
    match dictGet g.hostLookups n with
    | none => (g, none)
    | some list =>
      match firstIdxOf list (.stub tok) with
      | none => (g, none)
      | some idx =>
        let list' := list.eraseIdx idx
        if list.length = 2 then
          ({ g with hostLookups := dictRemove g.hostLookups n },
            match list'.get? 0 with
            | some (.prim p) => some (cancelNoReg (setClientNullNoReg p) true 0)
            | _ => none)
        else
          ({ g with hostLookups := dictUpdate g.hostLookups n (fun _ => list') },
            none)

/-- `CFHostCancelInfoResolution` (CFHost.c:2598-2707).  The `info` argument
is ignored by the source; whatever lookup is in flight is cancelled.  When a
lookup exists: unschedule and invalidate it, withdraw from the master
registry if the in-flight kind is `kCFHostAddresses`, release it, and install
a freshly created, signalled cancel stub — or `NULL` when the stub's
`CFRunLoopSourceCreate` fails (`_type` is left unchanged in both cases). -/
def cfHostCancelInfoResolution (h : Host) (g : Globals) (stubOk : Bool)
    (freshStub : Nat) : Host × Globals × Option Host :=
  match h.lookup with
  | none => (h, g, none)
  | some tok =>
    let w := if h.typ = .addresses then withdrawFromMaster g (firstName h) tok
             else (g, none)
    if stubOk then ({ h with lookup := some freshStub }, w.1, w.2)
    else ({ h with lookup := none }, w.1, w.2)

/-- `CFHostSetClient(h, NULL, NULL)` (CFHost.c:2710-2778): release the client
context; cancel any outstanding lookup, withdrawing from the master registry
when the in-flight kind is `kCFHostAddresses`; clear `lookup`, `_type`,
callback and context. -/
def cfHostSetClientNull (h : Host) (g : Globals) : Host × Globals × Option Host :=
  match h.lookup with
  | none => ({ h with hasCallback := false, clientInfo := false }, g, none)
  | some tok =>
    let w := if h.typ = .addresses then withdrawFromMaster g (firstName h) tok
             else (g, none)
    ({ h with lookup := none, typ := .nullType, hasCallback := false,
              clientInfo := false }, w.1, w.2)

/-- `CFHostSetClient` with a non-NULL callback (CFHost.c:2781-2797):
schedules the lookup if newly callbacked (no handle-state change in the
model) and records callback and retained context. -/
def cfHostSetClientSome (h : Host) : Host :=
  { h with hasCallback := true, clientInfo := true }

/-! ### The lookup driver -/

/-- The nested `CFHostStartInfoResolution(host, _kCFHostMasterAddressLookup,
error)` issued on the freshly created primary inside `_CreateAddressLookup`
(CFHost.c:1070).  The primary has an asynchronous client callback
(`_MasterLookupCallBack`) and empty schedules, and the master kind reaches
only the `default` branch of `_CreateLookup_NoLock`, which on Linux forwards
to `_CreateMasterAddressLookup_Linux`; no registry or cache is touched.
Returns (started, primary-after, error-out). -/
def startMasterResolution (h : Host) (env : LookupEnv) :
    Bool × Host × CFStreamError :=
  if h.lookup.isSome then (false, h, h.error)
  else
    match firstName h with
    | none => (false, h, h.error)
    | some n =>
      let mr := createMasterAddressLookup_Linux n h.error env
      let h1 := { h with error := mr.err, lookup := mr.tok,
                         typ := if mr.tok.isSome then .masterAddressLookup
                                else h.typ }
      (h1.lookup.isSome, h1, h1.error)

/-- `_CreateAddressLookup` (CFHost.c:995-1138) for `info = kCFHostAddresses`:
zero the error; if a group for the name exists, take its primary — `started`
stays `FALSE`, so no subscriber source is created and the caller receives no
lookup and no error (CFHost.c:997/1016-1017/1098).  Otherwise create the
group list, the primary host, set `_MasterLookupCallBack` as its client and
start the master resolution; on start failure detach the primary and remove
the group.  When started without error, create the caller's subscriber
run-loop source and append it to the group; if that allocation fails and the
caller would have been the sole subscriber, cancel the primary and drop the
group.  Returns (caller's lookup token, error written to the caller's error
slot, new globals). -/
def createAddressLookup (n : HostName) (g : Globals) (env : LookupEnv) :
    Option Nat × CFStreamError × Globals :=
  match dictGet g.hostLookups n with
  | some _ => (none, noStreamError, g)
  | none =>
    if ¬env.listOk then (none, outOfMemoryError, g)
    else
      let g1 : Globals :=
        { g with hostLookups := dictAdd g.hostLookups n [] }
      if ¬env.hostOk then (none, outOfMemoryError, g1)
      else
        let prim0 := cfHostSetClientSome (hostCreateWithName n)
        let s := startMasterResolution prim0 env
        if ¬s.1 then
          (none, s.2.2,
            { g1 with hostLookups := dictRemove g1.hostLookups n })
        else if s.2.2.error = 0 then
          if env.subSourceOk then
            let reg2 := dictUpdate g1.hostLookups n
              (fun _ => [.prim s.2.1, .stub env.freshTok])
            (some env.freshTok, s.2.2, { g1 with hostLookups := reg2 })
          else
            (none, outOfMemoryError,
              { g1 with hostLookups := dictRemove g1.hostLookups n })
        else
          let reg3 := dictUpdate g1.hostLookups n (fun _ => [.prim s.2.1])
          (s.2.1.lookup, s.2.2, { g1 with hostLookups := reg3 })

/-- The body of `_CreateLookup_NoLock`'s `switch` (CFHost.c:519-694), Linux
configuration, for a handle with no in-flight lookup.  Returns the handle
with `_lookup`, `_error` and `_info` updated (never `_type`: that is set by
the epilogue), the new globals, and the `*_Radar4012176` signalled flag. -/
def createLookupCore (h : Host) (info : HostInfoType) (g : Globals)
    (env : LookupEnv) : Host × Globals × Bool :=
  match info with
  | .addresses =>
    match firstName h with
    | none => (h, g, false)
    | some n =>
      let cache1 := expireCacheEntries g.hostCache env.now
      let g1 : Globals := { g with hostCache := cache1 }
      match dictGet cache1 n with
      | none =>
        let r := createAddressLookup n g1 env
        ({ h with lookup := r.1, error := r.2.1 }, r.2.2, false)
      | some entry =>
        let cp := arrayCreateDeepCopy (entry.hostAddrsId, entry.hostAddrs)
          env.deepCopyOk env.freshArr
        let src : Option Nat := if env.sourceOk then some env.freshTok else none
        match src, cp with
        | some s, some c =>
          ({ h with lookup := some s,
                    info := dictAdd h.info .addresses (.addrsArr c.1 c.2) },
            g1, true)
        | some _, none =>
          ({ h with lookup := none, error := outOfMemoryError }, g1, false)
        | none, _ =>
          ({ h with lookup := none, error := outOfMemoryError }, g1, false)
  | .names =>
    match firstAddr h with
    | some _ =>
      -- `_CreateNameLookup_Linux` (CFHost.c:1433-1437) returns NULL without
      -- touching the error.
      (h, g, false)
    | none => (h, g, false)
  | .reachability =>
    -- Non-Mach branch (CFHost.c:664-668).
    ({ h with error := ⟨EOPNOTSUPP_code, posixDomain⟩ }, g, false)
  | _other =>
    match firstName h with
    | some n =>
      -- Master-family kinds call `_CreateMasterAddressLookup` directly; all
      -- remaining kinds go through `_CreateDNSLookup`, which on Linux
      -- forwards to the same function (CFHost.c:1567-1584).
      let mr := createMasterAddressLookup_Linux n h.error env
      ({ h with lookup := mr.tok, error := mr.err }, g, false)
    | none =>
      match firstAddr h with
      | some _ =>
        -- `_CFNetworkCFStringCreateWithCFDataAddress` (external): the
        -- address reformatted as a textual name, `NULL` on failure.
        match env.addrToName with
        | some n2 =>
          let mr := createMasterAddressLookup_Linux n2 h.error env
          ({ h with lookup := mr.tok, error := mr.err }, g, false)
        | none => ({ h with error := outOfMemoryError }, g, false)
      | none => (h, g, false)

/-- Result of `_CreateLookup_NoLock`. -/
structure CreateLookupResult where
  host : Host
  globals : Globals
  ok : Bool
  wakeup : Bool
deriving Repr, DecidableEq

/-- `_CreateLookup_NoLock` (CFHost.c:500-702): refuse when a lookup is
already in flight (CFHost.c:514-517); otherwise run the kind dispatch and
then the epilogue `if (host->_lookup) { host->_type = info; result = TRUE; }`
(CFHost.c:696-699). -/
def createLookup_NoLock (h : Host) (info : HostInfoType) (g : Globals)
    (env : LookupEnv) : CreateLookupResult :=
  if h.lookup.isSome then ⟨h, g, false, false⟩
  else
    let r := createLookupCore h info g env
    if r.1.lookup.isSome then
      ⟨{ r.1 with typ := info }, r.2.1, true, r.2.2⟩
    else ⟨r.1, r.2.1, false, r.2.2⟩

/-- Result of `CFHostStartInfoResolution`: return value, handle, globals, and
the contents written to the caller's error storage. -/
structure StartResult where
  ok : Bool
  host : Host
  globals : Globals
  errOut : CFStreamError
deriving Repr, DecidableEq

/-- `CFHostStartInfoResolution` (CFHost.c:2471-2542).  The caller's error
storage is zeroed on entry and receives a copy of the handle's error slot on
exit.  If the lookup cannot be created, bail.  With a client callback set the
call is asynchronous and returns `TRUE` immediately; without one it blocks in
`_HostBlockUntilComplete` (CFHost.c:441-477) while the run loop drives the
lookup: the completed handle state produced by that external event processing
is supplied as `syncFinal`, and the synchronous result is `TRUE` iff its
error slot is clear. -/
def cfHostStartInfoResolution (h : Host) (info : HostInfoType) (g : Globals)
    (env : LookupEnv) (syncFinal : Host) : StartResult :=
  let r := createLookup_NoLock h info g env
  if ¬r.ok then ⟨false, r.host, r.globals, r.host.error⟩
  else if h.hasCallback then ⟨true, r.host, r.globals, r.host.error⟩
  else ⟨syncFinal.error.error = 0, syncFinal, r.globals, syncFinal.error⟩

/-- `CFHostStartInfoResolution` including the NULL-tolerant error pointer
handling (CFHost.c:2474-2480): with no caller storage the internal `extra`
slot is substituted, so the copy-out goes nowhere visible; everything else is
unchanged. -/
def cfHostStartInfoResolutionC (h : Host) (info : HostInfoType) (g : Globals)
    (env : LookupEnv) (syncFinal : Host) (hasErrPtr : Bool) :
    StartResult × Option CFStreamError :=
  let r := cfHostStartInfoResolution h info g env syncFinal
  (r, if hasErrPtr then some r.errOut else none)

/-! ### Completion callbacks -/

def AF_INET : Int := 2

def AF_INET6 : Int := 10

/-- `_AddressSizeForSupportedFamily` (CFHost.c:1587-1606):
`sizeof(struct sockaddr_in)` / `sizeof(struct sockaddr_in6)`. -/
def addressSizeForSupportedFamily (family : Int) : Nat :=
  if family = AF_INET then 16 else if family = AF_INET6 then 28 else 0

/-- One node of the `struct addrinfo` result chain. -/
structure AddrInfoNode where
  family : Int
  bytes : List Nat
deriving Repr, DecidableEq

/-- The materialisation loop of `_GetAddrInfoCallBackWithFree`
(CFHost.c:1656-1694): walk the chain, skip unsupported families, wrap each
accepted sockaddr in a CFData of the family-fixed length; on a mid-iteration
`CFDataCreate` failure (per-node outcomes in `dataOks`) drop the partial list
and fail.  Returns `none` exactly on that failure. -/
def materializeAddrs : List AddrInfoNode → List Bool → List AddrBytes →
    Option (List AddrBytes)
  | [], _, acc => some acc
  | r :: rest, oks, acc =>
    if r.family ≠ AF_INET ∧ r.family ≠ AF_INET6 then
      materializeAddrs rest oks acc
    else if oks.headD true then
      materializeAddrs rest oks.tail
        (acc ++ [r.bytes.take (addressSizeForSupportedFamily r.family)])
    else none

/-- `_GetAddrInfoCallBackWithFree` (CFHost.c:1611-1734), handle-state part:
when a lookup is still in flight, drop the prior `info[type]` entry, then on
resolver failure map the status into the error slot and store `kCFNull`; on
success materialise the address list (array-allocation outcome `arrOk`,
per-node outcomes `dataOks`) and store it, or record `ENOMEM` — note that on
a mid-iteration failure nothing is stored under the kind.  Finally tear the
lookup down (`_HostLookupCancel_NoLock`). -/
def getAddrInfoCallBack (h : Host) (eaiStatus errnoVal : Int)
    (res : List AddrInfoNode) (arrOk : Bool) (dataOks : List Bool)
    (freshArr : Nat) : Host :=
  match h.lookup with
  | none => h
  | some _ =>
    let info0 := dictRemove h.info h.typ
    let h1 :=
      if eaiStatus ≠ 0 then
        { h with error := handleGetAddrInfoStatus eaiStatus errnoVal h.error false,
                 info := dictAdd info0 h.typ .null }
      else if ¬arrOk then
        { h with error := outOfMemoryError,
                 info := dictAdd info0 h.typ .null }
      else
        match materializeAddrs res dataOks [] with
        | some addrs =>
          { h with info := dictAdd info0 h.typ (.addrsArr freshArr addrs) }
        | none =>
          { h with error := outOfMemoryError, info := info0 }
    { h1 with lookup := none, typ := .nullType }

/-- `_AddressLookupPerform` (CFHost.c:2269-2300): snapshot for the callback
and tear the lookup down unconditionally. -/
def addressLookupPerform (h : Host) : Host :=
  { h with lookup := none, typ := .nullType }

/-- `_HostCancel` (CFHost.c:400-438): tear the lookup down when one exists. -/
def hostCancelPerform (h : Host) : Host :=
  if h.lookup.isSome then { h with lookup := none, typ := .nullType } else h

/-- The per-subscriber body of `_MasterLookupCallBack`'s fan-out loop
(CFHost.c:2180-2242): under the subscriber's lock, drop the prior
`info[type]` entry; on error copy the error and store `kCFNull`; otherwise
deep-copy the primary's address array — on success the source stores `addrs`,
the primary's original array, and releases the copy `cp` unused
(CFHost.c:2196-2202); on copy failure record `ENOMEM` and store `kCFNull`.
`addrsId`/`addrs` are the identity and contents of the primary's resolved
array; `cpOk`/`freshArr` drive the deep copy. -/
def masterLookupUpdateClient (c : Host) (err : CFStreamError) (addrsId : Nat)
    (addrs : List AddrBytes) (cpOk : Bool) (freshArr : Nat) : Host :=
  let info0 := dictRemove c.info c.typ
  if err.error ≠ 0 then
    { c with error := err, info := dictAdd info0 c.typ .null }
  else
    match arrayCreateDeepCopy (addrsId, addrs) cpOk freshArr with
    | some _ =>
      { c with info := dictAdd info0 c.typ (.addrsArr addrsId addrs) }
    | none =>
      { c with error := outOfMemoryError, info := dictAdd info0 c.typ .null }

/-! ### Scheduling -/

/-- Modelled from the spec: `_SchedulesAddRunLoopAndMode`
(CFNetworkSchedule.c, not under `src/`) appends the (loop, mode) pair unless
already present; returns whether it was newly added (§4.1: duplicate adds
are idempotent). -/
def schedulesAdd (s : List (Nat × Nat)) (l m : Nat) : List (Nat × Nat) × Bool :=
  if (l, m) ∈ s then (s, false) else (s ++ [(l, m)], true)

/-- Modelled from the spec: `_SchedulesRemoveRunLoopAndMode`
(CFNetworkSchedule.c, not under `src/`) removes the (loop, mode) pair if
present; returns whether it was removed. -/
def schedulesRemove (s : List (Nat × Nat)) (l m : Nat) :
    List (Nat × Nat) × Bool :=
  if (l, m) ∈ s then (s.filter (fun p => decide (¬ p = (l, m))), true)
  else (s, false)

/-- `CFHostScheduleWithRunLoop` (CFHost.c:2807-2826). -/
def cfHostScheduleWithRunLoop (h : Host) (l m : Nat) : Host :=
  { h with schedules := (schedulesAdd h.schedules l m).1 }

/-- `CFHostUnscheduleFromRunLoop` (CFHost.c:2829-2848). -/
def cfHostUnscheduleFromRunLoop (h : Host) (l m : Nat) : Host :=
  { h with schedules := (schedulesRemove h.schedules l m).1 }

/-! ### The public operations as a step relation -/

/-- One completed public operation on an existing handle, with the external
outcomes it consumed. -/
inductive HostOp where
  | start (info : HostInfoType) (env : LookupEnv) (syncFinal : Host)
  | cancel (stubOk : Bool) (freshStub : Nat)
  | setClientNull
  | setClientSome
  | schedule (l m : Nat)
  | unschedule (l m : Nat)
  | completeAddrInfo (eaiStatus errnoVal : Int) (res : List AddrInfoNode)
      (arrOk : Bool) (dataOks : List Bool) (freshArr : Nat)
  | addressPerform
  | cancelPerform
  | masterFanout (err : CFStreamError) (addrsId : Nat) (addrs : List AddrBytes)
      (cpOk : Bool) (freshArr : Nat)

/-- Apply one public operation to a handle and the globals. -/
def applyOp (h : Host) (g : Globals) : HostOp → Host × Globals
  | .start info env syncFinal =>
    let r := cfHostStartInfoResolution h info g env syncFinal
    (r.host, r.globals)
  | .cancel stubOk freshStub =>
    let r := cfHostCancelInfoResolution h g stubOk freshStub
    (r.1, r.2.1)
  | .setClientNull =>
    let r := cfHostSetClientNull h g
    (r.1, r.2.1)
  | .setClientSome => (cfHostSetClientSome h, g)
  | .schedule l m => (cfHostScheduleWithRunLoop h l m, g)
  | .unschedule l m => (cfHostUnscheduleFromRunLoop h l m, g)
  | .completeAddrInfo s e res arrOk dataOks fa =>
    (getAddrInfoCallBack h s e res arrOk dataOks fa, g)
  | .addressPerform => (addressLookupPerform h, g)
  | .cancelPerform => (hostCancelPerform h, g)
  | .masterFanout err aid addrs cpOk fa =>
    (masterLookupUpdateClient h err aid addrs cpOk fa, g)

/-- Invariant (I1) of the spec: `lookup == NULL ⇔ type == NullKind`. -/
def lookupTypeConsistent (h : Host) : Prop :=
  h.lookup = none ↔ h.typ = .nullType

instance (h : Host) : Decidable (lookupTypeConsistent h) := by
  unfold lookupTypeConsistent; infer_instance

/-- Side conditions under which an operation is considered: `start` must be
handed an actual query kind (not the idle sentinel `_kCFNullHostInfoType`),
and its synchronous-completion state must be idle — `_HostBlockUntilComplete`
(CFHost.c:454) returns only once `_lookup` is `NULL`, and every completion
path resets `_type` through `_HostLookupCancel_NoLock`; `cancel` covers the
case in which the cancel stub's allocation succeeds (its failure is the
corrected claim's exception). -/
def opWellFormed : HostOp → Prop
  | .start info _ sf =>
    info ≠ .nullType ∧ sf.lookup = none ∧ sf.typ = .nullType
  | .cancel stubOk _ => stubOk = true
  | _ => True

/-! ### Concrete fixtures used by the counterexamples and witnesses -/

/-- 27 single-name cache admissions (27 distinct completed primaries), all at
time 0, into an initially empty cache — the admission path performs no
eviction. -/
def c2cache : HostCache :=
  (List.range 27).foldl
    (fun c i => masterAdmitNamesToCache c (some (.namesArr 0 [[i]])) 0 [] 0
      true true) []

/-- A cache whose snapshot has an expired entry first (admitted at time 0,
observed at time 1000 = 1.0 s later) followed by 25 entries of age 0. -/
def c3cache : HostCache :=
  ([100], ⟨0, [], 0⟩) :: (List.range 25).map (fun i => ([i], ⟨0, [], 1000⟩))

/-- A two-entry cache at observation time 1000: one fresh entry of age 0.4 s
and one expired entry of age 1.0 s. -/
def c4cache : HostCache :=
  [([7], ⟨0, [[9, 9]], 600⟩), ([8], ⟨1, [[3]], 0⟩)]

/-- A handle created with an address only (no names). -/
def hAddrOnly : Host := hostCreateWithAddress [2, 0, 0, 0]

/-- A handle with a `kCFHostAddresses` lookup in flight whose error slot
still holds the nonzero error of an earlier failed resolution (reachable:
a failed start records the error, a later cache-hit start succeeds without
clearing the slot). -/
def hRunning : Host :=
  { info := [(.names, .namesArr 0 [[104]])]
    lookup := some 7
    typ := .addresses
    schedules := []
    hasCallback := true
    clientInfo := true
    error := ⟨50, posixDomain⟩ }

/-- A subscriber handle waiting on a master lookup group. -/
def hSubscriber : Host :=
  { info := [(.names, .namesArr 0 [[104]])]
    lookup := some 9
    typ := .addresses
    schedules := []
    hasCallback := true
    clientInfo := true
    error := noStreamError }

/-- A primary handle with its master-address resolution in flight. -/
def hPrimary : Host :=
  { info := [(.names, .namesArr 0 [[104]])]
    lookup := some 42
    typ := .masterAddressLookup
    schedules := []
    hasCallback := true
    clientInfo := true
    error := noStreamError }

/-- A registry holding one group with the primary and a single subscriber. -/
def gLastSub : Globals := ⟨[([104], [.prim hPrimary, .stub 9])], []⟩

/-- A registry holding one group with the primary and two subscribers. -/
def gTwoSubs : Globals := ⟨[([104], [.prim hPrimary, .stub 9, .stub 10])], []⟩

/-! ## Dictionary lemmas -/

theorem dictGet_mem {κ α : Type} [DecidableEq κ] {d : List (κ × α)} {k : κ}
    {v : α} (h : dictGet d k = some v) : (k, v) ∈ d := by
  induction d with
  | nil => simp [dictGet] at h
  | cons p r ih =>
    by_cases hp : p.1 = k
    · simp only [dictGet, hp, if_pos] at h
      cases h
      have hpe : (k, p.2) = p := by
        cases p with
        | mk k' v' => cases hp; rfl
      rw [hpe]
      exact List.mem_cons_self _ _
    · simp only [dictGet, hp, if_neg, not_false_iff] at h
      exact List.mem_cons_of_mem _ (ih h)

theorem mem_dictRemove {κ α : Type} [DecidableEq κ] {d : List (κ × α)}
    {k : κ} {p : κ × α} : p ∈ dictRemove d k ↔ p ∈ d ∧ ¬ p.1 = k := by
  simp [dictRemove, List.mem_filter]

theorem dictGet_dictRemove_self {κ α : Type} [DecidableEq κ]
    (d : List (κ × α)) (k : κ) : dictGet (dictRemove d k) k = none := by
  induction d with
  | nil => rfl
  | cons p r ih =>
    by_cases hp : p.1 = k
    · simpa [dictRemove, dictGet, hp] using ih
    · simpa [dictRemove, dictGet, hp] using ih

theorem dictGet_dictUpdate_self {κ α : Type} [DecidableEq κ]
    {d : List (κ × α)} {k : κ} {v : α} (f : α → α)
    (h : dictGet d k = some v) : dictGet (dictUpdate d k f) k = some (f v) := by
  induction d with
  | nil => simp [dictGet] at h
  | cons p r ih =>
    by_cases hp : p.1 = k
    · simp only [dictGet, hp, if_pos] at h
      cases h
      simp [dictUpdate, dictGet, hp]
    · simp only [dictGet, hp, if_neg, not_false_iff] at h
      simpa [dictUpdate, dictGet, hp] using ih h

/-! ## Expiry lemmas -/

theorem staleKeys_cons_expired {now : Int} {q : HostName × CacheEntry}
    (rest : List (HostName × CacheEntry)) (hq : kCFHostCacheTimeoutUnits ≤ entryAge now q.2) :
    staleKeys (q :: rest) now = q.1 :: staleKeys rest now := by
  simp [staleKeys, List.filter_cons, hq]

theorem staleKeys_cons_fresh {now : Int} {q : HostName × CacheEntry}
    (rest : List (HostName × CacheEntry)) (hq : ¬ kCFHostCacheTimeoutUnits ≤ entryAge now q.2) :
    staleKeys (q :: rest) now = staleKeys rest now := by
  simp [staleKeys, List.filter_cons, hq]

theorem expireLoop_dict (now : Int) (snap : List (HostName × CacheEntry)) :
    ∀ (dict : HostCache) (i j : Nat) (oldest : Int),
      (expireLoop now snap dict i j oldest).1 =
        dict.filter (fun p => decide (p.1 ∉ staleKeys snap now)) := by
  induction snap with
  | nil =>
    intro dict i j oldest
    simp [expireLoop, staleKeys]
  | cons q rest ih =>
    intro dict i j oldest
    by_cases hq : kCFHostCacheTimeoutUnits ≤ entryAge now q.2
    · rw [expireLoop]
      simp only [hq, if_pos]
      rw [ih, staleKeys_cons_expired rest hq, dictRemove, List.filter_filter]
      apply List.filter_congr
      intro p _
      by_cases h1 : p.1 = q.1 <;> by_cases h2 : p.1 ∈ staleKeys rest now <;>
        simp [h1, h2]
    · rw [expireLoop]
      simp only [hq, if_neg, not_false_iff]
      rw [staleKeys_cons_fresh rest hq]
      by_cases ho : oldest < entryAge now q.2 <;> simp only [ho, if_pos,
        if_neg, not_false_iff] <;> exact ih dict _ _ _

theorem expireLoop_idx (now : Int) (snap : List (HostName × CacheEntry)) :
    ∀ (dict : HostCache) (i j : Nat) (oldest : Int),
      (expireLoop now snap dict i j oldest).2 = trackFold now snap i j oldest := by
  induction snap with
  | nil => intro dict i j oldest; simp [expireLoop, trackFold]
  | cons q rest ih =>
    intro dict i j oldest
    rw [expireLoop, trackFold]
    by_cases hq : kCFHostCacheTimeoutUnits ≤ entryAge now q.2
    · simp only [hq, if_pos]; exact ih _ _ _ _
    · simp only [hq, if_neg, not_false_iff]
      by_cases ho : oldest < entryAge now q.2 <;>
        simp only [ho, if_pos, if_neg, not_false_iff] <;> exact ih _ _ _ _

theorem length_filter_mono {α : Type} (l : List α) (p q : α → Bool)
    (h : ∀ a ∈ l, p a = true → q a = true) :
    (l.filter p).length ≤ (l.filter q).length := by
  induction l with
  | nil => simp
  | cons a r ih =>
    have hr : ∀ b ∈ r, p b = true → q b = true :=
      fun b hb => h b (List.mem_cons_of_mem _ hb)
    by_cases hp : p a = true
    · have hqa : q a = true := h a (List.mem_cons_self _ _) hp
      simp only [List.filter_cons, hp, hqa, if_pos, List.length_cons]
      exact Nat.succ_le_succ (ih hr)
    · simp only [List.filter_cons, hp, if_neg, not_false_iff, Bool.false_eq_true]
      by_cases hqa : q a = true
      · simp only [hqa, if_pos, List.length_cons]
        exact Nat.le_succ_of_le (ih hr)
      · simp only [hqa, if_neg, not_false_iff, Bool.false_eq_true]
        exact ih hr

theorem mem_expire_fresh {cache : HostCache} {now : Int}
    {p : HostName × CacheEntry} (h : p ∈ expireCacheEntries cache now) :
    entryAge now p.2 < kCFHostCacheTimeoutUnits := by
  have hmem : p ∈ cache.filter (fun q => decide (q.1 ∉ staleKeys cache now)) := by
    unfold expireCacheEntries at h
    rw [expireLoop_dict now cache cache 0 0 0] at h
    by_cases hc : kCFHostCacheMaxEntries ≤
        (cache.filter (fun q => decide (q.1 ∉ staleKeys cache now))).length
    · simp only [hc, if_pos] at h
      rcases hg : cache.get? (expireLoop now cache cache 0 0 0).2 with _ | q
      · rw [hg] at h; exact h
      · rw [hg] at h; exact (mem_dictRemove.mp h).1
    · simpa only [hc, if_neg, not_false_iff] using h
  rcases List.mem_filter.mp hmem with ⟨hin, hkey⟩
  by_contra hage
  have hstale : p.1 ∈ staleKeys cache now := by
    have : p ∈ cache.filter (fun q => decide (kCFHostCacheTimeoutUnits ≤ entryAge now q.2)) :=
      List.mem_filter.mpr ⟨hin, by simpa using le_of_not_lt hage⟩
    exact List.mem_map.mpr ⟨p, this, rfl⟩
  simp [hstale] at hkey

theorem keyUnique {κ α : Type} [DecidableEq κ] {l : List (κ × α)} {k : κ}
    {a b : α} (hnd : (l.map Prod.fst).Nodup) (ha : (k, a) ∈ l)
    (hb : (k, b) ∈ l) : a = b := by
  induction l with
  | nil => cases ha
  | cons p r ih =>
    rw [List.map_cons, List.nodup_cons] at hnd
    obtain ⟨hp, hr⟩ := hnd
    rcases List.mem_cons.mp ha with ha1 | ha1
    · rcases List.mem_cons.mp hb with hb1 | hb1
      · exact congrArg Prod.snd (ha1.trans hb1.symm)
      · rw [← ha1] at hp
        exact absurd (List.mem_map_of_mem Prod.fst hb1) hp
    · rcases List.mem_cons.mp hb with hb1 | hb1
      · rw [← hb1] at hp
        exact absurd (List.mem_map_of_mem Prod.fst ha1) hp
      · exact ih hr ha1 hb1

theorem loopDict_eq_fresh {cache : HostCache} {now : Int}
    (hnd : (cache.map Prod.fst).Nodup) :
    cache.filter (fun q => decide (q.1 ∉ staleKeys cache now)) =
      freshEntries cache now := by
  unfold freshEntries
  apply List.filter_congr
  intro p hp
  by_cases hfresh : entryAge now p.2 < kCFHostCacheTimeoutUnits
  · simp only [hfresh, decide_True, decide_eq_true_eq]
    have : p.1 ∉ staleKeys cache now := by
      intro hmem
      rcases List.mem_map.mp hmem with ⟨q, hq, hq1⟩
      rcases List.mem_filter.mp hq with ⟨hqin, hqstale⟩
      have : p.2 = q.2 := by
        have hp' : (p.1, p.2) ∈ cache := by simpa using hp
        have hqq : (q.1, q.2) ∈ cache := by simpa using hqin
        have hq' : (p.1, q.2) ∈ cache := hq1 ▸ hqq
        exact keyUnique hnd hp' hq'
      rw [this] at hfresh
      exact absurd (by simpa using hqstale) (not_le.mpr hfresh)
    simp [this]
  · have hstale : p.1 ∈ staleKeys cache now := by
      apply List.mem_map.mpr
      exact ⟨p, List.mem_filter.mpr ⟨hp, by simpa using le_of_not_lt hfresh⟩, rfl⟩
    simp [hstale, hfresh]

/-! ## Claim theorems: the positive cache -/

/-- Claim C2, counterexample: 27 single-name admissions from completed
primaries produce, at a point where the global mutex is not held, a cache of
27 entries; running the expiry step afterwards still leaves 26, so neither
the standing bound nor the admission-then-expiry bound of 25 holds. -/
theorem c2_counterexample :
    c2cache.length = 27 ∧ (expireCacheEntries c2cache 0).length = 26 ∧
      ¬ c2cache.length ≤ kCFHostCacheMaxEntries ∧
      ¬ (expireCacheEntries c2cache 0).length ≤ kCFHostCacheMaxEntries := by
  decide

/-- Claim C2, amended: cache admission performs no eviction, so the cache is
not bounded by 25 at every external observation point; the expiry step
removes every expired entry and at most one survivor, hence it restores the
bound whenever at most 25 entries survive expiry. -/
theorem c2_amended (cache : HostCache) (now : Int)
    (h : (freshEntries cache now).length ≤ kCFHostCacheMaxEntries) :
    (expireCacheEntries cache now).length ≤ kCFHostCacheMaxEntries := by
  have hloop : (cache.filter (fun q => decide (q.1 ∉ staleKeys cache now))).length ≤
      (freshEntries cache now).length := by
    apply length_filter_mono
    intro p hp hkey
    by_cases hfresh : entryAge now p.2 < kCFHostCacheTimeoutUnits
    · simpa using hfresh
    · exfalso
      have : p.1 ∈ staleKeys cache now :=
        List.mem_map.mpr ⟨p, List.mem_filter.mpr
          ⟨hp, by simpa using le_of_not_lt hfresh⟩, rfl⟩
      simp [this] at hkey
  unfold expireCacheEntries
  rw [expireLoop_dict now cache cache 0 0 0]
  by_cases hc : kCFHostCacheMaxEntries ≤
      (cache.filter (fun q => decide (q.1 ∉ staleKeys cache now))).length
  · simp only [hc, if_pos]
    rcases hg : cache.get? (expireLoop now cache cache 0 0 0).2 with _ | q
    · exact le_trans hloop h
    · exact le_trans (le_trans (List.length_filter_le _ _) hloop) h
  · simp only [hc, if_neg, not_false_iff]
    exact le_trans hloop h

/-- Claim C2, witness for the amended theorem at a concrete input. -/
theorem c2_amended_witness :
    (freshEntries c4cache 1000).length ≤ kCFHostCacheMaxEntries ∧
      (expireCacheEntries c4cache 1000).length ≤ kCFHostCacheMaxEntries :=
  ⟨by decide, c2_amended c4cache 1000 (by decide)⟩

/-- Claim C3, counterexample: a snapshot whose first entry is expired while
all 25 survivors have age exactly 0.  The tracked index stays 0 (ages never
exceed the initial `oldest = 0.0`), so the over-capacity deletion targets the
already-removed first key and deletes no surviving entry, although 25 ≥ 25
entries survive — the claimed deletion of the greatest-age survivor does not
happen. -/
theorem c3_counterexample :
    expireCacheEntries c3cache 1000 = freshEntries c3cache 1000 ∧
      (freshEntries c3cache 1000).length = 25 ∧
      kCFHostCacheMaxEntries ≤ (freshEntries c3cache 1000).length := by
  decide

/-- Claim C3, amended: the expiry routine deletes exactly the entries of age
at least 1.0 s; then, if at least 25 entries remain, it removes the entry
keyed by the tracked snapshot index — the first index achieving the maximal
age among surviving entries of positive age, or snapshot index 0 when no
survivor has positive age, in which case the removal can target an entry
already deleted by expiry and is then a no-op. -/
theorem c3_amended (cache : HostCache) (now : Int)
    (hnd : (cache.map Prod.fst).Nodup) :
    expireCacheEntries cache now =
      (if kCFHostCacheMaxEntries ≤ (freshEntries cache now).length then
        match cache.get? (trackFold now cache 0 0 0) with
        | some p => dictRemove (freshEntries cache now) p.1
        | none => freshEntries cache now
      else freshEntries cache now) := by
  unfold expireCacheEntries
  rw [expireLoop_dict now cache cache 0 0 0, expireLoop_idx now cache cache 0 0 0,
    loopDict_eq_fresh hnd]

/-- Claim C3, witness for the amended theorem at a concrete input. -/
theorem c3_amended_witness :
    (c3cache.map Prod.fst).Nodup ∧
      expireCacheEntries c3cache 1000 =
        (if kCFHostCacheMaxEntries ≤ (freshEntries c3cache 1000).length then
          match c3cache.get? (trackFold 1000 c3cache 0 0 0) with
          | some p => dictRemove (freshEntries c3cache 1000) p.1
          | none => freshEntries c3cache 1000
        else freshEntries c3cache 1000) :=
  ⟨by decide, c3_amended c3cache 1000 (by decide)⟩

/-- Claim C4: the `kCFHostAddresses` cache-consult path of
`_CreateLookup_NoLock` runs `_ExpireCacheEntries` before reading the cache,
and expiry removes every entry of age at least 1.0 s, so any entry the
cache-hit path serves has age strictly less than the TTL: an entry admitted
at least 1.0 s ago is never served. -/
theorem c4_cache_hit_always_fresh (cache : HostCache) (now : Int) (n : HostName)
    (e : CacheEntry) (h : (hostCacheConsult cache now n).2 = some e) :
    entryAge now e < kCFHostCacheTimeoutUnits := by
  have h2 : dictGet (expireCacheEntries cache now) n = some e := by
    simpa only [hostCacheConsult] using h
  exact @mem_expire_fresh cache now (n, e) (dictGet_mem h2)

/-- Claim C4, witness: a concrete consult that hits a fresh entry. -/
theorem c4_witness :
    (hostCacheConsult c4cache 1000 [7]).2 = some ⟨0, [[9, 9]], 600⟩ ∧
      entryAge 1000 (⟨0, [[9, 9]], 600⟩ : CacheEntry) < kCFHostCacheTimeoutUnits :=
  ⟨by decide, c4_cache_hit_always_fresh c4cache 1000 [7] ⟨0, [[9, 9]], 600⟩ (by decide)⟩

/-! ## Host-side lemmas -/

theorem createLookupCore_typ (h : Host) (info : HostInfoType) (g : Globals)
    (env : LookupEnv) : (createLookupCore h info g env).1.typ = h.typ := by
  cases info <;> unfold createLookupCore <;>
    (repeat (first | rfl | split | dsimp only))

theorem firstIdxOf_mem {l : Group} {e : GroupElem} (h : e ∈ l) :
    ∃ i, firstIdxOf l e = some i ∧ i < l.length := by
  induction l with
  | nil => cases h
  | cons a r ih =>
    by_cases ha : a = e
    · exact ⟨0, by simp [firstIdxOf, ha], by simp⟩
    · have hr : e ∈ r := by
        rcases List.mem_cons.mp h with h1 | h1
        · exact absurd h1.symm ha
        · exact h1
      obtain ⟨i, hi, hlt⟩ := ih hr
      refine ⟨i + 1, by simp [firstIdxOf, ha, hi], ?_⟩
      simpa using Nat.succ_lt_succ hlt

theorem takeWhile_length_ne {α : Type} (p : α → Bool) (l : List α)
    (h : ∃ c ∈ l, p c = false) : (l.takeWhile p).length ≠ l.length := by
  induction l with
  | nil => simp at h
  | cons a r ih =>
    by_cases hp : p a
    · rcases h with ⟨c, hc, hcp⟩
      rcases List.mem_cons.mp hc with h1 | h1
      · rw [h1] at hcp; rw [hcp] at hp; cases hp
      · have hne := ih ⟨c, h1, hcp⟩
        simp only [List.takeWhile_cons, hp, if_pos, List.length_cons]
        intro hEq
        exact hne (Nat.succ_injective hEq)
    · simp only [List.takeWhile_cons]
      rw [if_neg hp]
      simp

/-! ## Claim theorems: the host handle and the registry -/

/-- Claim C1: evaluation of the fan-out update at the failing input.  The
subscriber's info entry receives `.addrsArr 0 [[1, 2]]` — the primary's
original array, object id 0 — while the deep copy that
`_CFArrayCreateDeepCopy` produced (fresh id 5, structurally equal) is
discarded; the error stays clear, so neither disjunct of the claim (distinct
copy stored, or `ENOMEM` with the NULL-sentinel) holds. -/
theorem c1_fanout_stores_original :
    (masterLookupUpdateClient hSubscriber noStreamError 0 [[1, 2]] true 5).error
        = noStreamError ∧
      dictGet (masterLookupUpdateClient hSubscriber noStreamError 0
        [[1, 2]] true 5).info .addresses = some (.addrsArr 0 [[1, 2]]) ∧
      arrayCreateDeepCopy (0, [[1, 2]]) true 5 = some (5, [[1, 2]]) ∧
      (5 : Nat) ≠ 0 := by
  decide

/-- Claim C5, counterexample: a handle with a `kCFHostAddresses` lookup in
flight satisfies (I1); completing the public operation
`CFHostCancelInfoResolution` on it while the cancel stub's
`CFRunLoopSourceCreate` fails leaves `lookup == NULL` with `_type` still
`kCFHostAddresses`, violating (I1). -/
theorem c5_counterexample :
    lookupTypeConsistent hRunning ∧
      ¬ lookupTypeConsistent
          (applyOp hRunning emptyGlobals (.cancel false 99)).1 := by
  decide

/-- Claim C5, amended: every handle produced by the create operations
satisfies (I1), and every completed public operation preserves (I1),
provided the cancel stub's allocation succeeds (`CFHostCancelInfoResolution`
with a failed `CFRunLoopSourceCreate` is the exception the counterexample
exhibits, leaving `lookup == NULL` with the old `_type`). -/
theorem c5_i1_preserved :
    (∀ n, lookupTypeConsistent (hostCreateWithName n)) ∧
      (∀ a, lookupTypeConsistent (hostCreateWithAddress a)) ∧
      (∀ h, lookupTypeConsistent (hostCreateCopy h)) ∧
      (∀ (h : Host) (g : Globals) (op : HostOp), lookupTypeConsistent h →
        opWellFormed op → lookupTypeConsistent (applyOp h g op).1) := by
  refine ⟨fun n => ?_, fun a => ?_, fun h => ?_, fun h g op hI hwf => ?_⟩
  · simp [lookupTypeConsistent, hostCreateWithName]
  · simp [lookupTypeConsistent, hostCreateWithAddress]
  · simp [lookupTypeConsistent, hostCreateCopy]
  · cases op with
    | start info env sf =>
      obtain ⟨hinfo, hsf1, hsf2⟩ := hwf
      unfold applyOp cfHostStartInfoResolution createLookup_NoLock
      by_cases hl : h.lookup.isSome
      · simpa [hl] using hI
      · have hln : h.lookup = none := Option.not_isSome_iff_eq_none.mp hl
        have htyp : h.typ = .nullType := hI.mp hln
        have hct := createLookupCore_typ h info g env
        by_cases hro : (createLookupCore h info g env).1.lookup.isSome
        · by_cases hcb : h.hasCallback
          · simp only [hl, hro, hcb, Bool.false_eq_true, if_neg, if_pos,
              not_true, not_false_iff, ite_true, ite_false]
            unfold lookupTypeConsistent
            constructor
            · intro hnone
              rw [hnone] at hro
              cases hro
            · intro hty
              exact absurd hty hinfo
          · simp only [hl, hro, hcb, Bool.false_eq_true, if_neg, if_pos,
              not_true, not_false_iff, ite_true, ite_false]
            unfold lookupTypeConsistent
            simp [hsf1, hsf2]
        · have hro' : (createLookupCore h info g env).1.lookup = none :=
            Option.not_isSome_iff_eq_none.mp hro
          simp only [hl, hro, Bool.false_eq_true, if_neg, if_pos, not_true,
            not_false_iff, ite_true, ite_false]
          unfold lookupTypeConsistent
          simp [hro', hct, htyp]
    | cancel stubOk freshStub =>
      unfold applyOp cfHostCancelInfoResolution
      cases hl : h.lookup with
      | none => simpa [hl] using hI
      | some t =>
        have hwf' : stubOk = true := hwf
        unfold lookupTypeConsistent at hI ⊢
        rw [hl] at hI
        simp only [hwf', ite_true]
        constructor
        · intro hc; cases hc
        · intro hty
          exact absurd (hI.mpr hty) (by simp)
    | setClientNull =>
      unfold applyOp cfHostSetClientNull
      cases hl : h.lookup with
      | none =>
        unfold lookupTypeConsistent at hI ⊢
        rw [hl] at hI
        simpa using hI
      | some t => unfold lookupTypeConsistent; simp
    | setClientSome =>
      unfold applyOp cfHostSetClientSome
      unfold lookupTypeConsistent at hI ⊢
      simpa using hI
    | schedule l m =>
      unfold applyOp cfHostScheduleWithRunLoop
      unfold lookupTypeConsistent at hI ⊢
      simpa using hI
    | unschedule l m =>
      unfold applyOp cfHostUnscheduleFromRunLoop
      unfold lookupTypeConsistent at hI ⊢
      simpa using hI
    | completeAddrInfo s e res arrOk dataOks fa =>
      unfold applyOp getAddrInfoCallBack
      cases hl : h.lookup with
      | none => simpa [hl] using hI
      | some t => unfold lookupTypeConsistent; simp
    | addressPerform =>
      unfold applyOp addressLookupPerform lookupTypeConsistent
      simp
    | cancelPerform =>
      unfold applyOp hostCancelPerform
      by_cases hl : h.lookup.isSome
      · simp only [hl, ite_true]
        unfold lookupTypeConsistent
        simp
      · simpa [hl] using hI
    | masterFanout err aid addrs cpOk fa =>
      simp only [applyOp]
      unfold masterLookupUpdateClient
      unfold lookupTypeConsistent at hI ⊢
      split
      · simpa using hI
      · split <;> simpa using hI

/-- Claim C5, witness: a concrete (I1)-satisfying handle and a well-formed
public operation to which the preservation theorem applies. -/
theorem c5_witness :
    (lookupTypeConsistent hRunning ∧ opWellFormed (.cancel true 99)) ∧
      lookupTypeConsistent
        (applyOp hRunning emptyGlobals (.cancel true 99)).1 :=
  ⟨⟨by decide, rfl⟩,
    c5_i1_preserved.2.2.2 hRunning emptyGlobals (.cancel true 99) (by decide) rfl⟩

/-- Claim C6: withdrawal from a master lookup group.  When the withdrawing
subscriber is the last one (the group holds exactly the primary and its
stub), the primary's client is detached, its master-address resolution is
torn down, and the group is removed from the registry; when other
subscribers remain, only the stub is removed and the primary — its in-flight
lookup included — is left untouched at index 0. -/
theorem c6_last_subscriber_cancels_primary :
    (∀ (g : Globals) (n : HostName) (p : Host) (t : Nat),
      dictGet g.hostLookups n = some [.prim p, .stub t] →
      p.lookup.isSome = true →
      dictGet (withdrawFromMaster g (some n) t).1.hostLookups n = none ∧
        (withdrawFromMaster g (some n) t).2 =
          some { p with lookup := none, typ := .nullType,
                        hasCallback := false, clientInfo := false }) ∧
    (∀ (g : Globals) (n : HostName) (p : Host) (t : Nat) (rest : Group),
      dictGet g.hostLookups n = some (.prim p :: rest) →
      (GroupElem.stub t) ∈ rest → 2 ≤ rest.length →
      ∃ rest', dictGet (withdrawFromMaster g (some n) t).1.hostLookups n =
          some (.prim p :: rest') ∧
        (withdrawFromMaster g (some n) t).2 = none ∧
        rest'.length + 1 = rest.length) := by
  constructor
  · intro g n p t hget hrun
    have hidx : firstIdxOf [GroupElem.prim p, GroupElem.stub t]
        (GroupElem.stub t) = some 1 := by
      simp [firstIdxOf]
    have hw : withdrawFromMaster g (some n) t =
        ({ g with hostLookups := dictRemove g.hostLookups n },
          some (cancelNoReg (setClientNullNoReg p) true 0)) := by
      unfold withdrawFromMaster
      simp [hget, hidx, List.eraseIdx]
    rw [hw]
    refine ⟨dictGet_dictRemove_self g.hostLookups n, ?_⟩
    simp [setClientNullNoReg, cancelNoReg, hrun]
  · intro g n p t rest hget hmem hlen
    obtain ⟨i, hi, hilt⟩ := firstIdxOf_mem hmem
    have hidx : firstIdxOf (GroupElem.prim p :: rest) (GroupElem.stub t) =
        some (i + 1) := by
      simp [firstIdxOf, hi]
    have hne : ¬ (GroupElem.prim p :: rest).length = 2 := by
      simp only [List.length_cons]
      omega
    have hw : withdrawFromMaster g (some n) t =
        (⟨dictUpdate g.hostLookups n
            (fun _ => GroupElem.prim p :: rest.eraseIdx i), g.hostCache⟩, none) := by
      unfold withdrawFromMaster
      simp only [hget, hidx, hne, List.eraseIdx_cons_succ, ite_false, if_neg,
        not_false_iff, List.length_cons]
      simp
      omega
    rw [hw]
    refine ⟨rest.eraseIdx i, ?_, rfl, ?_⟩
    · have hupd := dictGet_dictUpdate_self
        (fun _ => GroupElem.prim p :: rest.eraseIdx i) hget
      simpa using hupd
    · rw [List.length_eraseIdx_of_lt hilt]
      omega

/-- Claim C6, witness: a concrete group with one subscriber (its cancellation
kills and removes the primary) and a concrete group with two subscribers
(one withdrawal leaves the primary in flight). -/
theorem c6_witness :
    (dictGet gLastSub.hostLookups [104] = some [.prim hPrimary, .stub 9] ∧
      hPrimary.lookup.isSome = true ∧
      dictGet (withdrawFromMaster gLastSub (some [104]) 9).1.hostLookups [104]
          = none ∧
      (withdrawFromMaster gLastSub (some [104]) 9).2 =
        some { hPrimary with lookup := none, typ := .nullType,
                             hasCallback := false, clientInfo := false }) ∧
    (dictGet gTwoSubs.hostLookups [104] =
        some (.prim hPrimary :: [.stub 9, .stub 10]) ∧
      (GroupElem.stub 9) ∈ [GroupElem.stub 9, GroupElem.stub 10] ∧
      ∃ rest', dictGet (withdrawFromMaster gTwoSubs (some [104]) 9).1.hostLookups
          [104] = some (.prim hPrimary :: rest') ∧
        (withdrawFromMaster gTwoSubs (some [104]) 9).2 = none ∧
        rest'.length + 1 = 2) :=
  ⟨⟨by decide, by decide,
    (c6_last_subscriber_cancels_primary.1 gLastSub [104] hPrimary 9
      (by decide) (by decide)).1,
    (c6_last_subscriber_cancels_primary.1 gLastSub [104] hPrimary 9
      (by decide) (by decide)).2⟩,
   ⟨by decide, by decide,
    c6_last_subscriber_cancels_primary.2 gTwoSubs [104] hPrimary 9
      [.stub 9, .stub 10] (by decide) (by decide) (by decide)⟩⟩

/-- Claim C7, counterexample: starting a `kCFHostAddresses` resolution from
idle on a handle that has no name (created with an address only) returns
`FALSE` while both the handle's error slot and the caller's out-parameter
stay zero — a failure to start with no error recorded. -/
theorem c7_counterexample :
    hAddrOnly.lookup = none ∧
      (cfHostStartInfoResolution hAddrOnly .addresses emptyGlobals envOk
        hAddrOnly).ok = false ∧
      (cfHostStartInfoResolution hAddrOnly .addresses emptyGlobals envOk
        hAddrOnly).host.error.error = 0 ∧
      (cfHostStartInfoResolution hAddrOnly .addresses emptyGlobals envOk
        hAddrOnly).errOut.error = 0 := by
  decide

/-- Claim C7, amended: whenever `CFHostStartInfoResolution` returns `FALSE`,
the caller's error out-parameter is exactly a copy of the handle's error
slot; the slot is guaranteed nonzero only on the paths that record an error
— on Linux the reachability path always records `EOPNOTSUPP` — while the
no-input paths and the join-an-existing-group path return `FALSE` with the
error still zero. -/
theorem c7_error_propagation :
    (∀ (h : Host) (info : HostInfoType) (g : Globals) (env : LookupEnv)
        (sf : Host),
      (cfHostStartInfoResolution h info g env sf).ok = false →
      (cfHostStartInfoResolution h info g env sf).errOut =
        (cfHostStartInfoResolution h info g env sf).host.error) ∧
    (∀ (h : Host) (g : Globals) (env : LookupEnv) (sf : Host),
      h.lookup = none →
      (cfHostStartInfoResolution h .reachability g env sf).ok = false ∧
        (cfHostStartInfoResolution h .reachability g env sf).host.error =
          ⟨EOPNOTSUPP_code, posixDomain⟩) := by
  constructor
  · intro h info g env sf hok
    unfold cfHostStartInfoResolution at hok ⊢
    by_cases hc : (createLookup_NoLock h info g env).ok
    · simp only [hc, not_true, ite_false, if_neg, not_false_iff] at hok ⊢
      by_cases hcb : h.hasCallback
      · simp [hcb] at hok
      · simp [hcb] at hok ⊢
    · simp [hc]
  · intro h g env sf hl
    have hl' : h.lookup.isSome = false := by simp [hl]
    unfold cfHostStartInfoResolution createLookup_NoLock createLookupCore
    simp [hl']

/-- Claim C7, witness for the amended theorem at concrete inputs. -/
theorem c7_witness :
    ((cfHostStartInfoResolution hAddrOnly .addresses emptyGlobals envOk
        hAddrOnly).ok = false ∧
      (cfHostStartInfoResolution hAddrOnly .addresses emptyGlobals envOk
        hAddrOnly).errOut =
        (cfHostStartInfoResolution hAddrOnly .addresses emptyGlobals envOk
          hAddrOnly).host.error) ∧
    (hAddrOnly.lookup = none ∧
      (cfHostStartInfoResolution hAddrOnly .reachability emptyGlobals envOk
        hAddrOnly).ok = false ∧
      (cfHostStartInfoResolution hAddrOnly .reachability emptyGlobals envOk
        hAddrOnly).host.error = ⟨EOPNOTSUPP_code, posixDomain⟩) :=
  ⟨⟨by decide,
    c7_error_propagation.1 hAddrOnly .addresses emptyGlobals envOk hAddrOnly
      (by decide)⟩,
   ⟨by decide,
    (c7_error_propagation.2 hAddrOnly emptyGlobals envOk hAddrOnly rfl).1,
    (c7_error_propagation.2 hAddrOnly emptyGlobals envOk hAddrOnly rfl).2⟩⟩

/-- Claim C8, counterexample: a handle in the RUNNING state whose error slot
still holds a prior nonzero error (reachable: a failed start records it, a
subsequent cache-hit start succeeds without clearing it).  Re-entering
`CFHostStartInfoResolution` returns `FALSE` but copies that nonzero error
into the caller's out-parameter — the out-parameter does acquire a nonzero
error from the call. -/
theorem c8_counterexample :
    hRunning.lookup.isSome = true ∧
      (cfHostStartInfoResolution hRunning .addresses emptyGlobals envOk
        hRunning).ok = false ∧
      (cfHostStartInfoResolution hRunning .addresses emptyGlobals envOk
        hRunning).errOut.error = 50 ∧
      ¬ (cfHostStartInfoResolution hRunning .addresses emptyGlobals envOk
        hRunning).errOut.error = 0 := by
  decide

/-- Claim C8, amended: re-entering `CFHostStartInfoResolution` while a lookup
is in flight returns `FALSE` and leaves the handle (its error slot included)
and the globals unchanged; the caller's out-parameter receives a copy of the
handle's current error slot, so it is zero exactly when that slot was
already zero. -/
theorem c8_reentry (h : Host) (info : HostInfoType) (g : Globals)
    (env : LookupEnv) (sf : Host) (hl : h.lookup.isSome = true) :
    (cfHostStartInfoResolution h info g env sf).ok = false ∧
      (cfHostStartInfoResolution h info g env sf).host = h ∧
      (cfHostStartInfoResolution h info g env sf).globals = g ∧
      (cfHostStartInfoResolution h info g env sf).errOut = h.error := by
  unfold cfHostStartInfoResolution createLookup_NoLock
  simp [hl]

/-- Claim C8, witness for the re-entry theorem at a concrete input. -/
theorem c8_witness :
    hRunning.lookup.isSome = true ∧
      ((cfHostStartInfoResolution hRunning .addresses emptyGlobals envOk
          hRunning).ok = false ∧
        (cfHostStartInfoResolution hRunning .addresses emptyGlobals envOk
          hRunning).host = hRunning ∧
        (cfHostStartInfoResolution hRunning .addresses emptyGlobals envOk
          hRunning).globals = emptyGlobals ∧
        (cfHostStartInfoResolution hRunning .addresses emptyGlobals envOk
          hRunning).errOut = hRunning.error) :=
  ⟨by decide, c8_reentry hRunning .addresses emptyGlobals envOk hRunning
    (by decide)⟩

/-- Claim C9: a name containing an embedded NUL or units that fail UTF-8
conversion makes `_CFStringToCStringWithError` report `HOST_NOT_FOUND` in
the NetDB domain, and `_CreateMasterAddressLookup_Linux` then bails before
creating its lookup source or submitting any `getaddrinfo_a` request. -/
theorem c9_bad_name_host_not_found (n : HostName) (err0 : CFStreamError)
    (env : LookupEnv) (hs : env.strAllocOk = true)
    (hbad : ∃ c ∈ n, convertibleUnit c = false) :
    createMasterAddressLookup_Linux n err0 env =
      ⟨none, ⟨HOST_NOT_FOUND_code, netdbDomain⟩, false⟩ := by
  have hconv : (n.takeWhile convertibleUnit).length ≠ n.length :=
    takeWhile_length_ne convertibleUnit n hbad
  unfold createMasterAddressLookup_Linux stringToCStringWithError cstringConverted
  simp [hs, hconv]

/-- Claim C9, witness: the name `"w\0w"` (an embedded NUL) at a concrete
environment. -/
theorem c9_witness :
    envOk.strAllocOk = true ∧
      (∃ c ∈ [119, 0, 119], convertibleUnit c = false) ∧
      createMasterAddressLookup_Linux [119, 0, 119] noStreamError envOk =
        ⟨none, ⟨HOST_NOT_FOUND_code, netdbDomain⟩, false⟩ :=
  ⟨rfl, by decide,
    c9_bad_name_host_not_found [119, 0, 119] noStreamError envOk rfl (by decide)⟩

/-- Claim C10: the NULL-tolerant out-parameter handling.  Whether or not the
caller supplies error storage to `CFHostStartInfoResolution`, the return
value, the handle and the globals are identical, and the value that would be
written is the handle's final error; likewise `CFHostGetInfo` returns the
same value with and without a `hasBeenResolved` pointer, and the flag it
would write is exactly key-presence in the info map.  The internal `extra`
slot substituted at CFHost.c:2477-2478 and CFHost.c:2552-2553 is what makes
the NULL case read- and write-safe. -/
theorem c10_null_out_params :
    (∀ (h : Host) (info : HostInfoType) (g : Globals) (env : LookupEnv)
        (sf : Host),
      (cfHostStartInfoResolutionC h info g env sf true).1 =
        (cfHostStartInfoResolutionC h info g env sf false).1 ∧
      (cfHostStartInfoResolutionC h info g env sf true).2 =
        some (cfHostStartInfoResolution h info g env sf).errOut ∧
      (cfHostStartInfoResolutionC h info g env sf false).2 = none) ∧
    (∀ (h : Host) (info : HostInfoType),
      (cfHostGetInfoC h info true).1 = (cfHostGetInfoC h info false).1 ∧
      (cfHostGetInfoC h info true).2 = some (cfHostGetInfo h info).2 ∧
      (cfHostGetInfoC h info false).2 = none) :=
  ⟨fun _ _ _ _ _ => ⟨rfl, rfl, rfl⟩, fun _ _ => ⟨rfl, rfl, rfl⟩⟩

end CFHost
